import Mathlib

/-!
Shallow embedding of the chatbot core in `bot.py`: the `KnowledgeBase`
(a Python dict from strings to JSON values, with JSON-file load/save),
the `Logger` (an append-only list of formatted log lines),
the `NaturalLanguageProcessor.preprocess_input` normalizer, and
`Chatbot.process_message` which composes them.
-/

set_option autoImplicit false

namespace Bot

/-- JSON values, as produced by Python `json.load`.  Numbers are modelled
as integers (the knowledge files in scope hold strings and small ints). -/
inductive JsonValue : Type where
  | str (s : String)
  | num (n : Int)
  | bool (b : Bool)
  | null
  | arr (elems : List JsonValue)
  | obj (fields : List (String × JsonValue))

/-- The in-memory mapping `KnowledgeBase.responses`: a Python dict modelled
as an association list in insertion order.  A real Python dict never holds
the same key twice; that invariant is the `NodupKeys` predicate below. -/
abbrev Dict := List (String × JsonValue)

/-- Python `d.get(k)` on the association list: first matching key. -/
def dictGet : Dict → String → Option JsonValue
  | [], _ => none
  | (k0, v) :: rest, k => if k0 = k then some v else dictGet rest k

/-- Python `d[k] = v`: an existing key keeps its position and gets the new
value; a new key is appended at the end. -/
def dictInsert : Dict → String → JsonValue → Dict
  | [], k, v => [(k, v)]
  | (k0, v0) :: rest, k, v =>
      if k0 = k then (k, v) :: rest else (k0, v0) :: dictInsert rest k v

/-- Python `d.update(other)` for a dict argument: insert every pair of
`other` in order. -/
def dictUpdate (d : Dict) (fields : List (String × JsonValue)) : Dict :=
  fields.foldl (fun acc kv => dictInsert acc kv.1 kv.2) d

/-- The keys of the mapping, in order. -/
def dictKeys (d : Dict) : List String :=
  d.map Prod.fst

/-- The Python-dict invariant: no key occurs twice. -/
def NodupKeys (d : Dict) : Prop :=
  (dictKeys d).Nodup

instance (d : Dict) : Decidable (NodupKeys d) := by
  unfold NodupKeys; infer_instance

/-- Number of entries of `d` whose key is `k`. -/
def keyCount (d : Dict) (k : String) : Nat :=
  (d.filter (fun kv => kv.1 = k)).length

/-- `v` is a JSON string. -/
def JsonValue.isStr : JsonValue → Bool
  | .str _ => true
  | _ => false

/-- What a file at some path decodes to: a JSON value, or content that
`json.load` rejects with `JSONDecodeError`. -/
inductive FileContent : Type where
  | json (v : JsonValue)
  | invalid

/-- The file system seen by the program: each path is absent or has content. -/
abbrev FileSystem := String → Option FileContent

/-- A successful write of `c` to `path`. -/
def writeFile (fs : FileSystem) (path : String) (c : FileContent) : FileSystem :=
  fun p => if p = path then some c else fs p

/-- The fixed fallback of `KnowledgeBase.get_response`. -/
def fallbackResponse : JsonValue :=
  .str ("Sorry, I don\x27t understand that.")

/-- `KnowledgeBase.get_response`: `self.responses.get(user_input, fallback)`. -/
def get_response (responses : Dict) (user_input : String) : JsonValue :=
  (dictGet responses user_input).getD fallbackResponse

/-- `KnowledgeBase.add_response`: `self.responses[input_str] = response`.
The Python signature takes a string response. -/
def add_response (responses : Dict) (input_str response : String) : Dict :=
  dictInsert responses input_str (.str response)

/-- Notice printed by `load_knowledge` when the file is absent. -/
def notFoundNotice (file_path : String) : String :=
  "Knowledge file \x27" ++ file_path ++ "\x27 not found. Starting fresh."

/-- Notice printed by `load_knowledge` on a `JSONDecodeError`. -/
def decodeErrorNotice : String :=
  "Error decoding JSON file. Please check its format."

/-- Notice printed by `load_knowledge` on success. -/
def loadedNotice : String :=
  "Knowledge base loaded from file."

/-- `KnowledgeBase.load_knowledge`: returns the new mapping together with
the printed notice, or an uncaught exception.  An absent file raises
`FileNotFoundError`, caught; undecodable content raises `JSONDecodeError`,
caught; a decoded JSON object is merged by `self.responses.update(...)`
and the success notice printed afterwards.  A decoded top level that is
not an object is handed to `dict.update` unvalidated, where CPython
raises `TypeError`/`ValueError` for the primitive shapes; no handler
catches those, so they propagate. -/
def load_knowledge (responses : Dict) (fs : FileSystem) (file_path : String) :
    Except String (Dict × String) :=
  match fs file_path with
  | none => .ok (responses, notFoundNotice file_path)
  | some .invalid => .ok (responses, decodeErrorNotice)
  | some (.json (.obj fields)) => .ok (dictUpdate responses fields, loadedNotice)
  | some (.json _) => .error ("TypeError: dict.update argument is not a mapping")

/-- Notice printed by `save_knowledge` on success. -/
def savedNotice : String :=
  "Knowledge base saved to file."

/-- Notice printed by `save_knowledge` on an `IOError`. -/
def saveErrorNotice : String :=
  "Error saving knowledge to file. Please try again."

/-- `KnowledgeBase.save_knowledge`: `json.dump(self.responses, file, indent=4)`
serializes the mapping as a JSON object in iteration order; on `IOError`
(modelled by the `ioError` flag of the environment) the notice is printed
and nothing changes. -/
def save_knowledge (responses : Dict) (fs : FileSystem) (file_path : String)
    (ioError : Bool) : FileSystem × String :=
  if ioError then (fs, saveErrorNotice)
  else (writeFile fs file_path (.json (.obj responses)), savedNotice)

/-- `KnowledgeBase.__init__`: `self.responses = {}` then
`self.load_knowledge(knowledge_file)`. -/
def kb_init (fs : FileSystem) (knowledge_file : String) :
    Except String (Dict × String) :=
  load_knowledge [] fs knowledge_file

/-- ASCII model of Python `str.lower` on one character, the shape of the
standard `toLower`: the 26 uppercase letters map down, all else is fixed. -/
def pyCharLower (c : Char) : Char :=
  if 65 ≤ c.toNat ∧ c.toNat ≤ 90 then Char.ofNat (c.toNat + 32) else c

/-- Python `str.lower`, character by character. -/
def pyLower (s : List Char) : List Char :=
  s.map pyCharLower

/-- Drop leading whitespace. -/
def stripLeft (s : List Char) : List Char :=
  s.dropWhile Char.isWhitespace

/-- Drop trailing whitespace. -/
def stripRight (s : List Char) : List Char :=
  (s.reverse.dropWhile Char.isWhitespace).reverse

/-- Python `str.strip`: drop leading and trailing whitespace. -/
def pyStrip (s : List Char) : List Char :=
  stripRight (stripLeft s)

/-- `NaturalLanguageProcessor.preprocess_input`: `user_input.lower().strip()`. -/
def preprocess_input (user_input : String) : String :=
  ⟨pyStrip (pyLower user_input.data)⟩

/-- The log of `Logger`: `self.logs`, a list of formatted lines. -/
abbrev Logs := List String

/-- Python `str()` as used by the log f-string: a string renders as itself.
The store only ever hands strings to the logger; renderings of the other
JSON shapes are abbreviated tags, not Python reprs. -/
def pyStr : JsonValue → String
  | .str s => s
  | .num n => toString n
  | .bool b => if b then "True" else "False"
  | .null => "None"
  | .arr _ => "<list>"
  | .obj _ => "<dict>"

/-- The f-string of `Logger.log_message`:
`f"[{timestamp}] User: {user_input} | Bot: {bot_response}"`. -/
def formatLog (timestamp user_input bot_response : String) : String :=
  "[" ++ timestamp ++ "] User: " ++ user_input ++ " | Bot: " ++ bot_response

/-- `Logger.log_message`: appends one formatted entry.  The timestamp is
read from the wall clock, here an explicit argument. -/
def log_message (logs : Logs) (timestamp user_input bot_response : String) : Logs :=
  logs ++ [formatLog timestamp user_input bot_response]

/-- `Logger.get_logs`: returns the log list. -/
def get_logs (logs : Logs) : Logs :=
  logs

/-- Notice printed by `display_logs` on an empty log. -/
def noLogsNotice : String :=
  "No logs available."

/-- `Logger.display_logs`: the printed lines — the empty notice, or a
header followed by every entry in order. -/
def display_logs (logs : Logs) : List String :=
  if logs = [] then [noLogsNotice]
  else ("\nConversation Logs:") :: logs

/-- The mutable state visible to `Chatbot.process_message`. -/
structure ChatbotState : Type where
  responses : Dict
  logs : Logs

/-- `Chatbot.process_message`: preprocess the message, look up the response,
log the (preprocessed, response) pair, return the response. -/
def process_message (st : ChatbotState) (timestamp message : String) :
    JsonValue × ChatbotState :=
  let preprocessed_message := preprocess_input message
  let response := get_response st.responses preprocessed_message
  (response,
    { st with logs := log_message st.logs timestamp preprocessed_message (pyStr response) })

/-! ### Association-list lemmas for the Python dict model -/

theorem dictGet_dictInsert_self (d : Dict) (k : String) (v : JsonValue) :
    dictGet (dictInsert d k v) k = some v := by
  induction d with
  | nil => simp [dictInsert, dictGet]
  | cons kv rest ih =>
    obtain ⟨k0, v0⟩ := kv
    by_cases h : k0 = k
    · simp [dictInsert, h, dictGet]
    · simp [dictInsert, h, dictGet, ih]

theorem dictGet_dictInsert_ne (d : Dict) (k k1 : String) (v : JsonValue)
    (h : k1 ≠ k) : dictGet (dictInsert d k v) k1 = dictGet d k1 := by
  induction d with
  | nil => simp [dictInsert, dictGet, Ne.symm h]
  | cons kv rest ih =>
    obtain ⟨k0, v0⟩ := kv
    by_cases h0 : k0 = k
    · subst h0
      simp [dictInsert, dictGet, Ne.symm h]
    · simp only [dictInsert, if_neg h0, dictGet]
      by_cases h1 : k0 = k1 <;> simp [h1, ih]

theorem dictKeys_nil : dictKeys [] = [] := rfl

theorem dictKeys_cons (k : String) (v : JsonValue) (rest : Dict) :
    dictKeys ((k, v) :: rest) = k :: dictKeys rest := rfl

theorem dictKeys_dictInsert (d : Dict) (k : String) (v : JsonValue) :
    dictKeys (dictInsert d k v) =
      if k ∈ dictKeys d then dictKeys d else dictKeys d ++ [k] := by
  induction d with
  | nil => simp [dictInsert, dictKeys]
  | cons kv rest ih =>
    obtain ⟨k0, v0⟩ := kv
    by_cases h0 : k0 = k
    · subst h0
      simp [dictInsert, dictKeys_cons]
    · rw [show dictInsert ((k0, v0) :: rest) k v = (k0, v0) :: dictInsert rest k v
        from by simp [dictInsert, h0]]
      rw [dictKeys_cons, dictKeys_cons, ih]
      by_cases hm : k ∈ dictKeys rest
      · rw [if_pos hm, if_pos (by simp [hm])]
      · rw [if_neg hm, if_neg (by simp [hm, Ne.symm h0])]
        simp

theorem mem_dictKeys_dictInsert (d : Dict) (k : String) (v : JsonValue)
    (a : String) : a ∈ dictKeys (dictInsert d k v) ↔ a ∈ dictKeys d ∨ a = k := by
  rw [dictKeys_dictInsert]
  by_cases hm : k ∈ dictKeys d
  · rw [if_pos hm]
    constructor
    · tauto
    · rintro (h | rfl) <;> tauto
  · rw [if_neg hm]
    simp

theorem nodupKeys_dictInsert (d : Dict) (k : String) (v : JsonValue)
    (h : NodupKeys d) : NodupKeys (dictInsert d k v) := by
  unfold NodupKeys at h ⊢
  rw [dictKeys_dictInsert]
  by_cases hm : k ∈ dictKeys d
  · rwa [if_pos hm]
  · rw [if_neg hm]
    simp [List.nodup_append, h, hm]

theorem dictGet_eq_none_of_not_mem (d : Dict) (k : String)
    (h : k ∉ dictKeys d) : dictGet d k = none := by
  induction d with
  | nil => simp [dictGet]
  | cons kv rest ih =>
    obtain ⟨k0, v0⟩ := kv
    simp only [dictKeys, List.map_cons, List.mem_cons, not_or] at h
    simp only [dictGet, if_neg (Ne.symm h.1)]
    exact ih h.2

theorem keyCount_eq_zero_of_not_mem (d : Dict) (k : String)
    (h : k ∉ dictKeys d) : keyCount d k = 0 := by
  induction d with
  | nil => simp [keyCount]
  | cons kv rest ih =>
    obtain ⟨k0, v0⟩ := kv
    simp only [dictKeys, List.map_cons, List.mem_cons, not_or] at h
    simp only [keyCount, List.filter_cons]
    rw [if_neg (by simpa using Ne.symm h.1)]
    exact ih h.2

theorem keyCount_dictInsert_self (d : Dict) (k : String) (v : JsonValue)
    (h : NodupKeys d) : keyCount (dictInsert d k v) k = 1 := by
  induction d with
  | nil => simp [dictInsert, keyCount]
  | cons kv rest ih =>
    obtain ⟨k0, v0⟩ := kv
    unfold NodupKeys dictKeys at h
    simp only [List.map_cons, List.nodup_cons] at h
    obtain ⟨hk0, hrest⟩ := h
    by_cases h0 : k0 = k
    · subst h0
      simp only [dictInsert, if_pos rfl, keyCount, List.filter_cons]
      rw [if_pos (by simp)]
      have := keyCount_eq_zero_of_not_mem rest k0 hk0
      unfold keyCount at this
      simp [this]
    · simp only [dictInsert, if_neg h0, keyCount, List.filter_cons]
      rw [if_neg (by simpa using h0)]
      exact ih hrest

theorem dictUpdate_nil (d : Dict) : dictUpdate d [] = d := rfl

theorem dictUpdate_cons (d : Dict) (k : String) (v : JsonValue)
    (rest : List (String × JsonValue)) :
    dictUpdate d ((k, v) :: rest) = dictUpdate (dictInsert d k v) rest := rfl

theorem dictGet_dictUpdate_of_not_mem (d : Dict)
    (fields : List (String × JsonValue)) (k : String)
    (h : k ∉ dictKeys fields) :
    dictGet (dictUpdate d fields) k = dictGet d k := by
  induction fields generalizing d with
  | nil => rfl
  | cons kv rest ih =>
    obtain ⟨k0, v0⟩ := kv
    simp only [dictKeys, List.map_cons, List.mem_cons, not_or] at h
    rw [dictUpdate_cons, ih _ h.2, dictGet_dictInsert_ne _ _ _ _ h.1]

theorem dictGet_dictUpdate_of_get (d : Dict)
    (fields : List (String × JsonValue)) (k : String) (v : JsonValue)
    (hnd : NodupKeys fields) (h : dictGet fields k = some v) :
    dictGet (dictUpdate d fields) k = some v := by
  induction fields generalizing d with
  | nil => simp [dictGet] at h
  | cons kv rest ih =>
    obtain ⟨k0, v0⟩ := kv
    unfold NodupKeys dictKeys at hnd
    simp only [List.map_cons, List.nodup_cons] at hnd
    obtain ⟨hk0, hrest⟩ := hnd
    by_cases h0 : k0 = k
    · subst h0
      rw [show dictGet ((k0, v0) :: rest) k0 = some v0 from by simp [dictGet]] at h
      obtain rfl : v0 = v := by injection h
      rw [dictUpdate_cons, dictGet_dictUpdate_of_not_mem _ _ _ hk0,
        dictGet_dictInsert_self]
    · simp only [dictGet, if_neg h0] at h
      rw [dictUpdate_cons, ih _ hrest h]

theorem dictInsert_eq_append (d : Dict) (k : String) (v : JsonValue)
    (h : k ∉ dictKeys d) : dictInsert d k v = d ++ [(k, v)] := by
  induction d with
  | nil => rfl
  | cons kv rest ih =>
    obtain ⟨k0, v0⟩ := kv
    simp only [dictKeys, List.map_cons, List.mem_cons, not_or] at h
    simp only [dictInsert, if_neg (Ne.symm h.1), List.cons_append, List.cons.injEq,
      true_and]
    exact ih h.2

theorem dictUpdate_eq_append (d : Dict) (fields : List (String × JsonValue))
    (hdisj : ∀ a ∈ dictKeys fields, a ∉ dictKeys d) (hf : NodupKeys fields) :
    dictUpdate d fields = d ++ fields := by
  induction fields generalizing d with
  | nil => simp [dictUpdate_nil]
  | cons kv rest ih =>
    obtain ⟨k0, v0⟩ := kv
    unfold NodupKeys dictKeys at hf
    simp only [List.map_cons, List.nodup_cons] at hf
    obtain ⟨hk0, hrest⟩ := hf
    have hk0d : k0 ∉ dictKeys d := hdisj k0 (by rw [dictKeys_cons]; exact List.mem_cons_self _ _)
    have hdisj2 : ∀ a ∈ dictKeys rest, a ∉ dictKeys (d ++ [(k0, v0)]) := by
      intro a ha
      have had : a ∉ dictKeys d :=
        hdisj a (by rw [dictKeys_cons]; exact List.mem_cons_of_mem _ ha)
      have hak0 : a ≠ k0 := by
        intro hak0
        subst hak0
        exact hk0 ha
      unfold dictKeys
      simp only [List.map_append, List.mem_append, List.map_cons, List.map_nil,
        List.mem_singleton, not_or]
      exact ⟨had, hak0⟩
    rw [dictUpdate_cons, dictInsert_eq_append _ _ _ hk0d, ih (d ++ [(k0, v0)]) hdisj2 hrest]
    simp

theorem dictUpdate_nil_left (fields : List (String × JsonValue))
    (hf : NodupKeys fields) : dictUpdate [] fields = fields := by
  rw [dictUpdate_eq_append [] fields (by simp [dictKeys]) hf]
  simp

/-! ### Normalizer lemmas -/

theorem pyCharLower_not_upper (c : Char) (h : 65 ≤ c.toNat ∧ c.toNat ≤ 90) :
    ¬(65 ≤ (Char.ofNat (c.toNat + 32)).toNat ∧ (Char.ofNat (c.toNat + 32)).toNat ≤ 90) := by
  obtain ⟨h1, h2⟩ := h
  obtain ⟨n, hn⟩ : ∃ n, c.toNat = n := ⟨_, rfl⟩
  rw [hn] at h1 h2 ⊢
  interval_cases n <;> decide

theorem pyCharLower_idem (c : Char) : pyCharLower (pyCharLower c) = pyCharLower c := by
  by_cases h : 65 ≤ c.toNat ∧ c.toNat ≤ 90
  · rw [show pyCharLower c = Char.ofNat (c.toNat + 32) from by
      unfold pyCharLower; rw [if_pos h]]
    unfold pyCharLower
    rw [if_neg (pyCharLower_not_upper c h)]
  · rw [show pyCharLower c = c from by unfold pyCharLower; rw [if_neg h]]
    unfold pyCharLower
    rw [if_neg h]

theorem pyLower_idem (s : List Char) : pyLower (pyLower s) = pyLower s := by
  unfold pyLower
  rw [List.map_map]
  exact List.map_congr_left (fun c _ => pyCharLower_idem c)

theorem stripRight_eq_rdropWhile (s : List Char) :
    stripRight s = List.rdropWhile Char.isWhitespace s := rfl

theorem stripLeft_idem (s : List Char) : stripLeft (stripLeft s) = stripLeft s :=
  List.dropWhile_idempotent _ _

theorem stripRight_idem (s : List Char) : stripRight (stripRight s) = stripRight s := by
  rw [stripRight_eq_rdropWhile, stripRight_eq_rdropWhile]
  exact List.rdropWhile_idempotent _ _

theorem stripLeft_eq_self_of_prefix {u m : List Char} (hpre : u <+: m)
    (hm : stripLeft m = m) : stripLeft u = u := by
  unfold stripLeft at hm ⊢
  rw [List.dropWhile_eq_self_iff] at hm ⊢
  intro hu
  have hml : 0 < m.length := lt_of_lt_of_le hu hpre.length_le
  have h0 := hm hml
  simp only [List.get_eq_getElem] at h0 ⊢
  rw [hpre.getElem hu]
  exact h0

theorem stripLeft_stripRight_stripLeft (s : List Char) :
    stripLeft (stripRight (stripLeft s)) = stripRight (stripLeft s) := by
  have hm : stripLeft (stripLeft s) = stripLeft s := stripLeft_idem s
  have hpre : stripRight (stripLeft s) <+: stripLeft s := by
    rw [stripRight_eq_rdropWhile]
    exact List.rdropWhile_prefix _ _
  exact stripLeft_eq_self_of_prefix hpre hm

theorem pyStrip_idem (s : List Char) : pyStrip (pyStrip s) = pyStrip s := by
  unfold pyStrip
  rw [stripLeft_stripRight_stripLeft, stripRight_idem]

theorem pyStrip_sublist (s : List Char) : List.Sublist (pyStrip s) s := by
  unfold pyStrip stripRight stripLeft
  have h1 : List.Sublist (List.dropWhile Char.isWhitespace s) s :=
    List.dropWhile_sublist _
  have h2 : List.Sublist
      (List.dropWhile Char.isWhitespace (List.dropWhile Char.isWhitespace s).reverse)
      (List.dropWhile Char.isWhitespace s).reverse := List.dropWhile_sublist _
  have h3 := h2.reverse
  rw [List.reverse_reverse] at h3
  exact h3.trans h1

theorem pyLower_pyStrip_pyLower (s : List Char) :
    pyLower (pyStrip (pyLower s)) = pyStrip (pyLower s) := by
  have hfix : ∀ c ∈ pyStrip (pyLower s), pyCharLower c = c := by
    intro c hc
    have hcs : c ∈ pyLower s := (pyStrip_sublist (pyLower s)).subset hc
    obtain ⟨a, _, rfl⟩ := List.mem_map.mp hcs
    exact pyCharLower_idem a
  have h1 : List.map pyCharLower (pyStrip (pyLower s)) =
      List.map id (pyStrip (pyLower s)) := List.map_congr_left hfix
  rw [show pyLower (pyStrip (pyLower s)) =
    List.map pyCharLower (pyStrip (pyLower s)) from rfl, h1, List.map_id]

/-! ### Claim theorems -/

/-- Claim C1: for any mapping M whose keys and values are all strings (a
Python dict, so keys are distinct), `save_knowledge(M, path)` followed by
`load_knowledge(path)` into a fresh empty store yields an in-memory mapping
equal to M. -/
theorem save_load_roundtrip (M : Dict) (fs : FileSystem) (path : String)
    (hnd : NodupKeys M) (_hstr : ∀ kv ∈ M, kv.2.isStr = true) :
    load_knowledge [] (save_knowledge M fs path false).1 path =
      .ok (M, loadedNotice) := by
  have hsave : (save_knowledge M fs path false).1 =
      writeFile fs path (.json (.obj M)) := rfl
  rw [hsave]
  unfold load_knowledge writeFile
  rw [if_pos rfl]
  show Except.ok (dictUpdate [] M, loadedNotice) = Except.ok (M, loadedNotice)
  rw [dictUpdate_nil_left M hnd]

/-- Witness for C1 at a concrete one-entry mapping. -/
theorem save_load_roundtrip_witness :
    load_knowledge []
        (save_knowledge [(("hello" : String), JsonValue.str ("hi there"))]
          (fun _ => none) ("kb.json") false).1 ("kb.json") =
      .ok ([(("hello" : String), JsonValue.str ("hi there"))], loadedNotice) :=
  save_load_roundtrip _ _ _ (by decide) (by decide)

/-- Claim C2 counterexample: a file containing the JSON object with the
single non-string entry a ↦ 1 is NOT treated as malformed-content:
`load_knowledge` decodes it, merges it, prints the success notice, and the
mapping is no longer the empty mapping it was before the call. -/
theorem load_nonstring_counterexample :
    load_knowledge []
        (fun p => if p = ("kb.json" : String)
          then some (.json (.obj [(("a" : String), JsonValue.num 1)])) else none)
        ("kb.json") =
      .ok ([(("a" : String), JsonValue.num 1)], loadedNotice) ∧
    ([(("a" : String), JsonValue.num 1)] : Dict) ≠ [] :=
  ⟨rfl, List.cons_ne_nil _ _⟩

/-- Claim C2 amended: `load_knowledge` treats only JSON-undecodable content
as malformed — then it reports the decode error, does not raise, and leaves
the mapping unchanged.  Content that decodes to a JSON object is merged
into the mapping even when its values are not strings. -/
theorem load_malformed_only_undecodable (d : Dict) (fs : FileSystem)
    (path : String) :
    (fs path = some .invalid →
      load_knowledge d fs path = .ok (d, decodeErrorNotice)) ∧
    (∀ fields, fs path = some (.json (.obj fields)) →
      load_knowledge d fs path = .ok (dictUpdate d fields, loadedNotice)) := by
  constructor
  · intro h
    unfold load_knowledge
    rw [h]
  · intro fields h
    unfold load_knowledge
    rw [h]

/-- Witness for the amended C2: both branches at concrete file systems. -/
theorem load_malformed_only_undecodable_witness :
    load_knowledge [] (fun _ => some FileContent.invalid) ("kb.json") =
      .ok ([], decodeErrorNotice) ∧
    load_knowledge []
        (fun _ => some (.json (.obj [(("a" : String), JsonValue.num 1)])))
        ("kb.json") =
      .ok ([(("a" : String), JsonValue.num 1)], loadedNotice) :=
  ⟨(load_malformed_only_undecodable [] _ _).1 rfl,
   (load_malformed_only_undecodable [] _ _).2
     ([(("a" : String), JsonValue.num 1)]) rfl⟩

/-- Claim C3: `load_knowledge` on a nonexistent path leaves the mapping
unchanged, does not raise, reports the absence as a notice, and the call
returns normally. -/
theorem load_missing_file (d : Dict) (fs : FileSystem) (path : String)
    (h : fs path = none) :
    load_knowledge d fs path = .ok (d, notFoundNotice path) := by
  unfold load_knowledge
  rw [h]

/-- Witness for C3 at a concrete nonempty mapping and empty file system. -/
theorem load_missing_file_witness :
    load_knowledge [(("hello" : String), JsonValue.str ("hi"))]
        (fun _ => none) ("missing.json") =
      .ok ([(("hello" : String), JsonValue.str ("hi"))],
        notFoundNotice ("missing.json")) :=
  load_missing_file _ _ _ rfl

/-- Claim C4: lookup is total — for every key present in the mapping,
`get_response` returns the stored response, and for every key not present
it returns the fixed fallback string; it never fails (it is a total Lean
function). -/
theorem get_response_total (d : Dict) (k : String) :
    (∀ v, dictGet d k = some v → get_response d k = v) ∧
    (dictGet d k = none →
      get_response d k = .str ("Sorry, I don\x27t understand that.")) := by
  constructor
  · intro v h
    unfold get_response
    rw [h]
    rfl
  · intro h
    unfold get_response
    rw [h]
    rfl

/-- Witness for C4: a present key and an absent key. -/
theorem get_response_total_witness :
    get_response [(("hello" : String), JsonValue.str ("hi there"))] ("hello") =
      JsonValue.str ("hi there") ∧
    get_response [] ("hello") =
      JsonValue.str ("Sorry, I don\x27t understand that.") :=
  ⟨(get_response_total _ _).1 _ rfl, (get_response_total _ _).2 rfl⟩

/-- Claim C5: `add_response(k, r1); add_response(k, r2)` leaves exactly one
entry for k in the mapping (given the dict invariant that keys were
distinct), and its value is r2. -/
theorem add_response_overwrite (d : Dict) (k r1 r2 : String)
    (hnd : NodupKeys d) :
    keyCount (add_response (add_response d k r1) k r2) k = 1 ∧
    dictGet (add_response (add_response d k r1) k r2) k = some (.str r2) := by
  unfold add_response
  exact ⟨keyCount_dictInsert_self _ _ _ (nodupKeys_dictInsert _ _ _ hnd),
    dictGet_dictInsert_self _ _ _⟩

/-- Witness for C5 on the empty store. -/
theorem add_response_overwrite_witness :
    keyCount (add_response (add_response [] ("k") ("r1")) ("k") ("r2")) ("k") = 1 ∧
    dictGet (add_response (add_response [] ("k") ("r1")) ("k") ("r2")) ("k") =
      some (.str ("r2")) :=
  add_response_overwrite [] _ _ _ (by decide)

/-- Claim C6: when `load_knowledge` succeeds on a JSON object file, the
result merges the file into the old mapping: every key of the file gets the
value from the file, and every key not present in the file (in particular every
old key absent from the file) keeps its previous value. -/
theorem load_merges (d : Dict) (fs : FileSystem) (path : String)
    (fields : List (String × JsonValue))
    (hfile : fs path = some (.json (.obj fields))) (hnd : NodupKeys fields) :
    load_knowledge d fs path = .ok (dictUpdate d fields, loadedNotice) ∧
    (∀ k v, dictGet fields k = some v →
      dictGet (dictUpdate d fields) k = some v) ∧
    (∀ k, k ∉ dictKeys fields →
      dictGet (dictUpdate d fields) k = dictGet d k) := by
  refine ⟨?_, ?_, ?_⟩
  · unfold load_knowledge
    rw [hfile]
  · intro k v h
    exact dictGet_dictUpdate_of_get d fields k v hnd h
  · intro k h
    exact dictGet_dictUpdate_of_not_mem d fields k h

/-- Witness for C6: an overwritten key and a preserved key. -/
theorem load_merges_witness :
    dictGet (dictUpdate
        [(("x" : String), JsonValue.str ("1")), (("y" : String), JsonValue.str ("2"))]
        [(("x" : String), JsonValue.str ("9")), (("z" : String), JsonValue.str ("3"))])
      ("x") = some (JsonValue.str ("9")) ∧
    dictGet (dictUpdate
        [(("x" : String), JsonValue.str ("1")), (("y" : String), JsonValue.str ("2"))]
        [(("x" : String), JsonValue.str ("9")), (("z" : String), JsonValue.str ("3"))])
      ("y") =
      dictGet
        [(("x" : String), JsonValue.str ("1")), (("y" : String), JsonValue.str ("2"))]
        ("y") :=
  ⟨(load_merges _ (fun _ => some (.json (.obj
      [(("x" : String), JsonValue.str ("9")), (("z" : String), JsonValue.str ("3"))])))
      ("kb.json") _ rfl (by decide)).2.1 ("x") _ rfl,
   (load_merges _ (fun _ => some (.json (.obj
      [(("x" : String), JsonValue.str ("9")), (("z" : String), JsonValue.str ("3"))])))
      ("kb.json") _ rfl (by decide)).2.2 ("y") (by decide)⟩

/-- Claim C7: the normalizer is pure, total (a Lean function) and
idempotent: preprocessing twice equals preprocessing once, where
preprocessing lowercases and then strips leading/trailing whitespace. -/
theorem preprocess_input_idem (s : String) :
    preprocess_input (preprocess_input s) = preprocess_input s := by
  unfold preprocess_input
  congr 1
  rw [show (String.mk (pyStrip (pyLower s.data))).data =
    pyStrip (pyLower s.data) from rfl]
  rw [pyLower_pyStrip_pyLower, pyStrip_idem]

/-- Claim C8: `process_message` normalizes the raw input, looks the
normalized key up, appends the formatted (normalized input, response) pair
to the log, and returns the response; on a store where only
`add_response("hello", "hi there")` was performed, `process_message` of
"  Hello " returns "hi there" and the log gains exactly the one record
with input "hello" and output "hi there". -/
theorem process_message_spec (st : ChatbotState) (ts msg : String) :
    (process_message st ts msg).1 =
      get_response st.responses (preprocess_input msg) ∧
    (process_message st ts msg).2.responses = st.responses ∧
    (process_message st ts msg).2.logs =
      st.logs ++ [formatLog ts (preprocess_input msg)
        (pyStr (get_response st.responses (preprocess_input msg)))] ∧
    process_message ⟨add_response [] ("hello") ("hi there"), []⟩ ts ("  Hello ") =
      (JsonValue.str ("hi there"),
        ⟨[(("hello" : String), JsonValue.str ("hi there"))],
          [formatLog ts ("hello") ("hi there")]⟩) :=
  ⟨rfl, rfl, rfl, rfl⟩

/-- Claim C9: the log is append-only and ordered — after N appends the log
holds exactly the N formatted records in call order (appended after
whatever was there before), and `display_logs` on an empty log reports
that no logs are available. -/
theorem logger_append_only (logs0 : Logs)
    (calls : List (String × String × String)) :
    get_logs (calls.foldl (fun ls c => log_message ls c.1 c.2.1 c.2.2) logs0) =
      logs0 ++ calls.map (fun c => formatLog c.1 c.2.1 c.2.2) ∧
    (get_logs (calls.foldl (fun ls c => log_message ls c.1 c.2.1 c.2.2) logs0)).length =
      logs0.length + calls.length ∧
    display_logs [] = [noLogsNotice] := by
  have hfold : ∀ (l0 : Logs),
      calls.foldl (fun ls c => log_message ls c.1 c.2.1 c.2.2) l0 =
        l0 ++ calls.map (fun c => formatLog c.1 c.2.1 c.2.2) := by
    induction calls with
    | nil => intro l0; simp
    | cons c rest ih =>
      intro l0
      rw [List.foldl_cons, List.map_cons, ih]
      unfold log_message
      simp
  have h1 : get_logs (calls.foldl (fun ls c => log_message ls c.1 c.2.1 c.2.2) logs0) =
      logs0 ++ calls.map (fun c => formatLog c.1 c.2.1 c.2.2) := hfold logs0
  refine ⟨h1, ?_, rfl⟩
  rw [h1]
  simp

/-- Claim C10: constructing a `KnowledgeBase` with a backing path loads
immediately: an existing JSON-object file becomes the initial mapping, an
absent or undecodable file leaves the store empty, and none of these cases
raises. -/
theorem kb_init_spec (fs : FileSystem) (path : String) :
    (∀ fields, fs path = some (.json (.obj fields)) → NodupKeys fields →
      kb_init fs path = .ok (fields, loadedNotice)) ∧
    (fs path = none → kb_init fs path = .ok ([], notFoundNotice path)) ∧
    (fs path = some .invalid → kb_init fs path = .ok ([], decodeErrorNotice)) := by
  refine ⟨?_, ?_, ?_⟩
  · intro fields h hnd
    unfold kb_init load_knowledge
    rw [h]
    show Except.ok (dictUpdate [] fields, loadedNotice) =
      Except.ok (fields, loadedNotice)
    rw [dictUpdate_nil_left fields hnd]
  · intro h
    unfold kb_init load_knowledge
    rw [h]
  · intro h
    unfold kb_init load_knowledge
    rw [h]

/-- Witness for C10: all three construction cases at concrete file systems. -/
theorem kb_init_spec_witness :
    kb_init (fun p => if p = ("kb.json" : String)
        then some (.json (.obj [(("a" : String), JsonValue.str ("b"))])) else none)
      ("kb.json") = .ok ([(("a" : String), JsonValue.str ("b"))], loadedNotice) ∧
    kb_init (fun _ => none) ("kb.json") = .ok ([], notFoundNotice ("kb.json")) ∧
    kb_init (fun _ => some FileContent.invalid) ("kb.json") =
      .ok ([], decodeErrorNotice) :=
  ⟨(kb_init_spec _ _).1 _ rfl (by decide),
   (kb_init_spec _ _).2.1 rfl,
   (kb_init_spec _ _).2.2 rfl⟩

end Bot
